import Mathlib

/-!
Shallow embedding of the multi-source feed aggregation server
(`server/src/server.js`): the topic-classification patterns, the token
bucket, the TTL cache, the three source fetchers and the feed route.
JavaScript timestamps (`Date.now()`) are modelled as `Int` milliseconds;
upstream network behaviour is modelled by explicit oracle arguments; a
JavaScript exception is an `Except.error`.
-/

namespace CommunitySources

/-! ## String utilities (structural, so the kernel can evaluate them) -/

/-- Replace every non-overlapping occurrence of `pat` by `rep`, scanning
left to right, with fuel bounding the number of steps (fuel is always
instantiated with the input length, which suffices because each step
consumes at least one character). Models JavaScript
`String.prototype.replace` with a global literal pattern. -/
def replaceFuel (pat rep : List Char) : Nat → List Char → List Char
  | 0, l => l
  | _, [] => []
  | fuel + 1, c :: rest =>
    if pat ≠ [] ∧ pat.isPrefixOf (c :: rest) then
      rep ++ replaceFuel pat rep fuel (List.drop (pat.length - 1) rest)
    else
      c :: replaceFuel pat rep fuel rest

/-- Models `s.replace(pat, rep)` on whole strings (global literal replacement). -/
def replaceStr (s pat rep : String) : String :=
  ⟨replaceFuel pat.data rep.data s.data.length s.data⟩

/-- Split a character list on a separator character (models splitting a
regex source on the alternation bar). -/
def splitOnChar (sep : Char) : List Char → List (List Char)
  | [] => [[]]
  | c :: rest =>
    if c = sep then [] :: splitOnChar sep rest
    else
      match splitOnChar sep rest with
      | [] => [[c]]
      | h :: t => (c :: h) :: t

/-- Remove regex escape backslashes: `\x` denotes the literal character
`x` for the escapes appearing in this repository's patterns (`\.`, `\/`). -/
def unesc : List Char → List Char
  | [] => []
  | '\\' :: c :: rest => c :: unesc rest
  | c :: rest => c :: unesc rest

/-- Does `hay` contain `pat` as a contiguous sublist? -/
def containsL (pat : List Char) : List Char → Bool
  | [] => pat.isEmpty
  | c :: rest => pat.isPrefixOf (c :: rest) || containsL pat rest

/-- ASCII lower-casing of a character list (the patterns and the contents
considered in the theorems are ASCII, where the JavaScript `i` flag is
plain ASCII case folding). -/
def lowerL (l : List Char) : List Char := l.map Char.toLower

/-! ## Topic classification patterns (`nostrSearchPatterns`, lines 82-90)

Each pattern in the source is an alternation of literal terms whose only
regex metacharacters are the escapes `\.` and `\/` and the alternation
bar, compiled case-insensitively.  Its matching semantics is therefore:
some branch, read as a literal string, occurs in the text
case-insensitively.  We keep the regex source strings verbatim and derive
both the matcher and the search-query translation from them. -/

def nostrSearchPatternSources : List String :=
  [ "\\.gov\\/|bea\\.gov|stlouisfed\\.org|worldbank\\.org|bls\\.gov|imf\\.org|oecd\\.org|europa\\.eu\\/eurostat|unstats\\.un\\.org|arxiv\\.org|nih\\.gov|nasa\\.gov|science\\.org|cell\\.com|pnas\\.org"
  , "\\.gov\\/"
  , "bea\\.gov|stlouisfed\\.org|worldbank\\.org|bls\\.gov|imf\\.org|oecd\\.org|europa\\.eu\\/eurostat|unstats\\.un\\.org"
  , "arxiv\\.org|nih\\.gov|nasa\\.gov|science\\.org|cell\\.com|pnas\\.org"
  , "imdb\\.com|rottentomatoes\\.com|netflix\\.com|hulu\\.com|amazon\\.com\\/gp\\/video\\/|play\\.max\\.com"
  , "podcasts\\.apple\\.com|open\\.spotify\\.com\\/episode\\/|open\\.spotify\\.com\\/show\\/"
  , "spotify\\.com\\/artist|spotify\\.com\\/track|spotify\\.com\\/album|music\\.apple\\.com|soundcloud\\.com" ]

/-- The alternation branches of a pattern source, each unescaped to the
literal string it matches. -/
def patternBranches (src : String) : List (List Char) :=
  (splitOnChar '|' src.data).map unesc

/-- Models `pattern.test(content)` for the literal-alternation patterns of this
repository: some branch occurs in the content, case-insensitively. -/
def patternTest (src : String) (content : String) : Bool :=
  (patternBranches src).any fun b => containsL (lowerL b) (lowerL content.data)

/-- Models `nostrSearchPatterns[i].test(content)`; an out-of-range index yields
`false` here, but note that in the JavaScript the lookup produces
`undefined` and a subsequent method access throws (this throwing path is
modelled explicitly where it occurs, in `fetchMastodonPosts`). -/
def nostrTest (i : Nat) (content : String) : Bool :=
  match nostrSearchPatternSources.get? i with
  | some src => patternTest src content
  | none => false

/-- Models `searchPattern.source.replace` of escaped dots by plain dots
followed by alternation bars by `OR`
(line 232): unescape escaped dots, then turn alternation bars into
`OR`-joins. -/
def searchQueryOf (src : String) : String :=
  replaceStr (replaceStr src "\\." ".") "|" " OR "

/-! ## Token bucket (`tokenBucket` lines 44-49, `getToken` lines 51-67) -/

structure TokenBucket where
  tokens : Int
  lastRefill : Int
  deriving DecidableEq, Repr

/-- The field `tokenBucket.refillRate`: one token per 60000 ms. -/
def refillRate : Int := 60000

/-- The field `tokenBucket.capacity`. -/
def bucketCapacity : Int := 5

/-- The bucket at module load time: 5 tokens, `lastRefill = Date.now()`. -/
def tokenBucketInit (start : Int) : TokenBucket := ⟨5, start⟩

/-- Models `getToken()` at instant `now`, returning the grant decision and the
updated bucket.  `Math.floor(timeSinceLastRefill / refillRate)` is
`Int.fdiv` (floor division). -/
def getToken (now : Int) (b : TokenBucket) : Bool × TokenBucket :=
  let timeSinceLastRefill := now - b.lastRefill
  let refillAmount := Int.fdiv timeSinceLastRefill refillRate
  let b1 : TokenBucket :=
    if refillAmount > 0 then
      ⟨min bucketCapacity (b.tokens + refillAmount), now⟩
    else b
  if b1.tokens > 0 then (true, ⟨b1.tokens - 1, b1.lastRefill⟩)
  else (false, b1)

/-- Run a sequence of `getToken` calls at the given instants, keeping the
final bucket state. -/
def runBucket (b : TokenBucket) (ts : List Int) : TokenBucket :=
  ts.foldl (fun s t => (getToken t s).2) b

/-- The bucket invariant claimed by the spec: tokens within
`[0, capacity]`. -/
def bucketInv (b : TokenBucket) : Prop :=
  0 ≤ b.tokens ∧ b.tokens ≤ bucketCapacity

instance (b : TokenBucket) : Decidable (bucketInv b) := by
  unfold bucketInv; infer_instance

/-! ## Normalized post shapes -/

/-- A relay-network event as delivered by a subscription. -/
structure NostrEvent where
  id : String
  pubkey : String
  content : String
  created_at : Int
  tags : List (List String)
  deriving DecidableEq, Repr

/-- Modelled library call: `nip19.npubEncode(pubkey)` (bech32-style
encoding of the raw public key; the exact encoding is external to the
repository, only that it is a pure function of the pubkey matters). -/
def npubEncode (pubkey : String) : String := "npub1" ++ pubkey

/-- A processed relay event (lines 205-212). -/
structure NostrPost where
  id : String
  pubkey : String
  content : String
  created_at : Int
  tags : List (List String)
  npub : String
  deriving DecidableEq, Repr

def processNostrEvent (e : NostrEvent) : NostrPost :=
  ⟨e.id, e.pubkey, e.content, e.created_at, e.tags, npubEncode e.pubkey⟩

/-! ## The relay-source TTL cache (`nostrCache`, line 69)

`new NodeCache({ stdTTL: 600 })`: `set` stamps the entry with
`expiresAt = now + 600 * 1000` ms; `get` returns the value while
`now ≤ expiresAt` and behaves as a miss afterwards (passive expiry). -/

structure CacheEntry where
  key : String
  value : List NostrPost
  expiresAt : Int
  deriving DecidableEq, Repr

structure NostrCache where
  entries : List CacheEntry
  deriving DecidableEq, Repr

def emptyCache : NostrCache := ⟨[]⟩

/-- The `nostrCache` standard TTL in milliseconds: 600 seconds. -/
def nostrTTLms : Int := 600 * 1000

/-- Models `cache.get(k)` at instant `now`. -/
def cacheGet (c : NostrCache) (k : String) (now : Int) : Option (List NostrPost) :=
  match c.entries.find? (fun e => e.key == k) with
  | some e => if now ≤ e.expiresAt then some e.value else none
  | none => none

/-- Models `cache.set(k, v)` at instant `now` (newest entry shadows older ones,
modelling overwrite). -/
def cacheSet (c : NostrCache) (k : String) (v : List NostrPost) (now : Int) : NostrCache :=
  ⟨⟨k, v, now + nostrTTLms⟩ :: c.entries⟩

/-- The cache key `` `nostr_${activeTab}` `` (line 160). -/
def nostrKey (activeTab : Nat) : String := "nostr_" ++ toString activeTab

/-! ## Relay-pool fetcher (`fetchNostrPosts`, lines 157-223) -/

/-- Upstream behaviour of the relay pool during one collection window:
either subscription setup throws, or the given events arrive before the
10-second timer fires. -/
inductive NostrUpstream where
  | setupFail
  | events (es : List NostrEvent)

/-- Models `fetchNostrPosts(activeTab)`: result, updated cache, and whether a
relay subscription was opened.  On a cache hit (`if (cachedResult)` —
arrays, including the empty array, are truthy in JavaScript) the cached
list is returned with no subscription.  Any error inside the `try` is
caught and yields an empty list.  The event callback keeps exactly the
events matching the tab's pattern.  (For an out-of-range tab the
JavaScript callback would throw outside any handler on the first event;
theorems about this fetcher are stated for in-range tabs.) -/
def fetchNostrPosts (activeTab : Nat) (now : Int) (cache : NostrCache)
    (up : NostrUpstream) : Except String (List NostrPost) × NostrCache × Bool :=
  let key := nostrKey activeTab
  match cacheGet cache key now with
  | some v => (.ok v, cache, false)
  | none =>
    match up with
    | .setupFail => (.ok [], cache, true)
    | .events es =>
      let collected := es.filter fun e => nostrTest activeTab e.content
      let processed := collected.map processNostrEvent
      (.ok processed, cacheSet cache key processed now, true)

/-! ## AT-Protocol fetcher (`fetchBlueskyPosts`, lines 92-155) -/

/-- The fixed feed-generator reference table (`feedLinks`, lines 71-80). -/
def feedLinks : List String :=
  [ "at://did:plc:hd4p7hmwqy3egilcv6lgjpzf/app.bsky.feed.generator/aaap7msb6vmdg"
  , "at://did:plc:hd4p7hmwqy3egilcv6lgjpzf/app.bsky.feed.generator/aaap7i2f6e3kq"
  , "at://did:plc:hd4p7hmwqy3egilcv6lgjpzf/app.bsky.feed.generator/aaacsjo76q5g4"
  , "at://did:plc:hd4p7hmwqy3egilcv6lgjpzf/app.bsky.feed.generator/aaab4n3ofdehe"
  , "at://did:plc:hd4p7hmwqy3egilcv6lgjpzf/app.bsky.feed.generator/aaaburmrbef3k"
  , "at://did:plc:hd4p7hmwqy3egilcv6lgjpzf/app.bsky.feed.generator/aaab4xs76ypte"
  , "at://did:plc:hd4p7hmwqy3egilcv6lgjpzf/app.bsky.feed.generator/aaabut5jyrc6c"
  , "at://did:plc:hd4p7hmwqy3egilcv6lgjpzf/app.bsky.feed.generator/gggp7i2f6e3kq" ]

/-- A rich-text segment as produced by `rt.segments()` after
`detectFacets`. -/
inductive RtSegment where
  | link (text uri : String)
  | mention (text did : String)
  | plain (text : String)
  deriving DecidableEq, Repr

/-- The markdown flattening loop (lines 126-135). -/
def renderMarkdown : List RtSegment → String
  | [] => ""
  | .link _ uri :: rest => uri ++ renderMarkdown rest
  | .mention text did :: rest =>
    "[" ++ text ++ "](https://my-bsky-app.com/user/" ++ did ++ ")" ++ renderMarkdown rest
  | .plain text :: rest => text ++ renderMarkdown rest

/-- A feed item from `getFeed`: the post record's text, the facet
detection outcome for that text (an upstream-dependent oracle, since
`detectFacets` consults the agent), and the record's facet/embed payloads
carried through opaquely. -/
structure BskyItem where
  uri : String
  text : String
  segments : List RtSegment
  recordFacets : List String
  recordEmbed : Option String
  deriving DecidableEq, Repr

/-- A processed AT-Protocol post (lines 137-145): the item with the
computed markdown attached and the record's facets/embed hoisted. -/
structure BskyPost where
  uri : String
  text : String
  markdown : String
  facets : List String
  embed : Option String
  deriving DecidableEq, Repr

def processBskyItem (it : BskyItem) : BskyPost :=
  ⟨it.uri, it.text, renderMarkdown it.segments, it.recordFacets, it.recordEmbed⟩

/-- Upstream behaviour of one AT-Protocol fetch: the step at which the
awaited call rejects, or the delivered feed items. -/
inductive BskyUpstream where
  | loginFail
  | getFeedFail
  | detectFacetsFail
  | ok (items : List BskyItem)

/-- Models `fetchBlueskyPosts(activeTab, preferredLanguages)`: consult the token
bucket first (returning `[]` without contacting the upstream when
denied); every rejection inside the `try` is caught and yields `[]`; on
success every returned item is processed and returned — the tab pattern
is never consulted. -/
def fetchBlueskyPosts (activeTab : Nat) (preferredLanguages : String) (now : Int)
    (bucket : TokenBucket) (up : BskyUpstream) :
    Except String (List BskyPost) × TokenBucket :=
  let g := getToken now bucket
  if g.1 = false then (.ok [], g.2)
  else
    match up with
    | .loginFail => (.ok [], g.2)
    | .getFeedFail => (.ok [], g.2)
    | .detectFacetsFail => (.ok [], g.2)
    | .ok items => (.ok (items.map processBskyItem), g.2)

/-! ## Federated-REST fetcher (`fetchMastodonPosts`, lines 225-297) -/

/-- A status as delivered by the federated search endpoint. -/
structure MastoStatus where
  id : String
  content : String
  created_at : String
  accountUsername : String
  accountDisplayName : String
  url : String
  deriving DecidableEq, Repr

instance : Inhabited MastoStatus := ⟨⟨"", "", "", "", "", ""⟩⟩

/-- A processed federated post (lines 280-289). -/
structure MastoPost where
  id : String
  content : String
  createdAt : String
  username : String
  displayName : String
  url : String
  deriving DecidableEq, Repr

def processStatus (s : MastoStatus) : MastoPost :=
  ⟨s.id, s.content, s.created_at, s.accountUsername, s.accountDisplayName, s.url⟩

/-- One issued search request's parameters (lines 243-248): the query,
`type=statuses`, `limit`, and the optional `max_id` cursor. -/
structure MastoRequest where
  q : String
  typ : String
  limit : Nat
  max_id : Option String
  deriving DecidableEq, Repr

/-- Upstream behaviour for one paginated request: an HTTP-level failure
(`!response.ok`), a body that fails to parse as JSON, a body without a
statuses array, or a statuses array. -/
inductive MastoResponse where
  | httpError (status : Nat)
  | jsonError
  | noStatuses
  | ok (statuses : List MastoStatus)

/-- JavaScript truthiness of the `maxId` variable (`null` and the empty
string are falsy), governing the `...(maxId && { max_id: maxId })`
spread. -/
def jsStrTruthy : Option String → Bool
  | none => false
  | some s => !(s == "")

def mkMastoRequest (q : String) (maxId : Option String) : MastoRequest :=
  ⟨q, "statuses", 40, if jsStrTruthy maxId then maxId else none⟩

/-- The pagination loop (lines 240-278), fuelled by the remaining page
budget; `idx` numbers the requests so the upstream oracle answers the
`idx`-th issued request.  Returns the accumulated statuses (or the thrown
error) together with the list of requests this call issued. -/
def mastoLoop (up : Nat → MastoResponse) (t : String → Bool) (q : String) :
    Nat → Nat → Option String → List MastoStatus →
    Except String (List MastoStatus) × List MastoRequest
  | 0, _, _, acc => (.ok acc, [])
  | fuel + 1, idx, maxId, acc =>
    let req := mkMastoRequest q maxId
    match up idx with
    | .httpError s => (.error ("HTTP error! status: " ++ toString s), [req])
    | .jsonError => (.error "invalid json", [req])
    | .noStatuses => (.ok acc, [req])
    | .ok statuses =>
      if statuses.length = 0 then (.ok acc, [req])
      else
        let filtered := statuses.filter fun p => t p.content
        let acc2 := acc ++ filtered
        if statuses.length < 40 then (.ok acc2, [req])
        else
          let r := mastoLoop up t q fuel (idx + 1) (some (statuses.getLastD default).id) acc2
          (r.1, req :: r.2)

/-- The error thrown at lines 231-232 when `nostrSearchPatterns[activeTab]`
is `undefined` and `.source` is read — this happens before the `try`
block, so it escapes the fetcher. -/
def mastoPatternUndefinedMsg : String :=
  "TypeError: Cannot read properties of undefined (reading source)"

/-- Models `fetchMastodonPosts(activeTab)`: translate the tab's pattern to a
search query, run the paginated loop (at most 10 pages of 40), re-filter
each page through the pattern, and normalize; any error inside the `try`
(HTTP or JSON) is caught and the whole call yields `[]`.  The pattern
lookup itself precedes the `try`, so an out-of-range tab throws. -/
def fetchMastodonPosts (activeTab : Nat) (up : Nat → MastoResponse) :
    Except String (List MastoPost) × List MastoRequest :=
  match nostrSearchPatternSources.get? activeTab with
  | none => (.error mastoPatternUndefinedMsg, [])
  | some src =>
    match mastoLoop up (patternTest src) (searchQueryOf src) 10 0 none [] with
    | (.ok sts, log) => (.ok (sts.map processStatus), log)
    | (.error _, log) => (.ok [], log)

/-! ## The feed route (`app.get('/api/feed')`, lines 300-323) -/

structure FeedPayload where
  blueskyFeed : List BskyPost
  nostrFeed : List NostrPost
  mastodonFeed : List MastoPost
  deriving DecidableEq, Repr

/-- The route's response: the three-list payload, or the 500 error
envelope produced by the route's `catch`. -/
inductive FeedResult where
  | ok (payload : FeedPayload)
  | serverError (details : String)
  deriving DecidableEq, Repr

/-- The feed route body after `activeTab` has been parsed: `Promise.all`
of the three fetchers; if any of them rejects, the `catch` sends the 500
error envelope with that error's message. -/
def apiFeed (activeTab : Nat) (preferredLanguages : String) (now : Int)
    (bucket : TokenBucket) (cache : NostrCache)
    (bup : BskyUpstream) (nup : NostrUpstream) (mup : Nat → MastoResponse) :
    FeedResult :=
  match (fetchBlueskyPosts activeTab preferredLanguages now bucket bup).1,
        (fetchNostrPosts activeTab now cache nup).1,
        (fetchMastodonPosts activeTab mup).1 with
  | .ok b, .ok n, .ok m => .ok ⟨b, n, m⟩
  | .error e, _, _ => .serverError e
  | _, .error e, _ => .serverError e
  | _, _, .error e => .serverError e

/-! ## Token bucket lemmas -/

/-- Results of a sequence of `getToken` calls at the given instants. -/
def grantResults : TokenBucket → List Int → List Bool
  | _, [] => []
  | b, t :: ts => (getToken t b).1 :: grantResults (getToken t b).2 ts

lemma refillRate_nonneg : (0 : Int) ≤ refillRate := by norm_num [refillRate]

lemma fdiv_refill (e : Int) : Int.fdiv e refillRate = e / 60000 := by
  rw [Int.fdiv_eq_ediv _ refillRate_nonneg]; rfl

/-- A call whose elapsed time is below one refill interval performs no
refill: only the token decrement (when granted) happens. -/
lemma getToken_no_refill (now : Int) (b : TokenBucket)
    (h : now - b.lastRefill < 60000) :
    getToken now b =
      if 0 < b.tokens then (true, ⟨b.tokens - 1, b.lastRefill⟩) else (false, b) := by
  have hr : ¬ (Int.fdiv (now - b.lastRefill) refillRate > 0) := by
    rw [fdiv_refill]; omega
  simp only [getToken, hr, if_false, gt_iff_lt]

/-- A call whose elapsed time is within `[1, 2)` refill intervals adds
exactly one token (capped) and advances the baseline; starting from a
nonnegative token count it always grants. -/
lemma getToken_refill_one (now : Int) (b : TokenBucket)
    (h0 : 0 ≤ b.tokens) (h1 : 60000 ≤ now - b.lastRefill)
    (h2 : now - b.lastRefill < 120000) :
    getToken now b = (true, ⟨min 5 (b.tokens + 1) - 1, now⟩) := by
  have hr : Int.fdiv (now - b.lastRefill) refillRate = 1 := by
    rw [fdiv_refill]; omega
  simp only [getToken, hr, gt_iff_lt, zero_lt_one, if_true, bucketCapacity]
  rw [if_pos (show (0 : Int) < min 5 (b.tokens + 1) by omega)]

lemma getToken_inv (now : Int) (b : TokenBucket) (h : bucketInv b) :
    bucketInv (getToken now b).2 := by
  obtain ⟨h0, h1⟩ := h
  simp only [bucketInv, bucketCapacity] at *
  simp only [getToken, fdiv_refill, gt_iff_lt, bucketCapacity]
  split <;> split <;> simp <;> omega

lemma runBucket_inv : ∀ (ts : List Int) (b : TokenBucket), bucketInv b →
    bucketInv (runBucket b ts)
  | [], _, h => h
  | t :: ts, b, h => by
    have step := getToken_inv t b h
    simpa [runBucket, List.foldl] using runBucket_inv ts (getToken t b).2 step

lemma getToken_fail_no_change (now : Int) (b : TokenBucket) (h : bucketInv b)
    (hf : (getToken now b).1 = false) : (getToken now b).2 = b := by
  obtain ⟨h0, h1⟩ := h
  simp only [bucketCapacity] at h1
  simp only [getToken, fdiv_refill, gt_iff_lt, bucketCapacity] at hf ⊢
  by_cases hpos : 0 < (now - b.lastRefill) / 60000
  · exfalso
    rw [if_pos hpos] at hf
    rw [if_pos (show (0 : Int) < min 5 (b.tokens + (now - b.lastRefill) / 60000) by omega)]
      at hf
    simp at hf
  · rw [if_neg hpos] at hf ⊢
    by_cases ht : 0 < b.tokens
    · rw [if_pos ht] at hf; simp at hf
    · rw [if_neg ht]

/-- C8: for every sequence of `getToken` calls at arbitrary times, the
bucket's token count stays within `[0, capacity]`, and a call that
returns `false` leaves the bucket state (tokens and refill baseline)
unchanged. -/
theorem getToken_bounds_and_pure_failure (b : TokenBucket) (h : bucketInv b) :
    (∀ ts : List Int, bucketInv (runBucket b ts)) ∧
    (∀ now : Int, (getToken now b).1 = false → (getToken now b).2 = b) := by
  exact ⟨fun ts => runBucket_inv ts b h, fun now => getToken_fail_no_change now b h⟩

/-- Witness for C8 at a concrete trace from the initial bucket. -/
theorem getToken_bounds_witness :
    bucketInv (runBucket (tokenBucketInit 0) [0, 0, 0, 0, 0, 0, 70000, 90000]) :=
  (getToken_bounds_and_pure_failure (tokenBucketInit 0) (by decide)).1
    [0, 0, 0, 0, 0, 0, 70000, 90000]

/-- The token-bucket step as C4's sentence literally describes it: each
call adds `floor(elapsed / refillIntervalMs)` tokens capped at capacity
and advances the refill baseline to `now` (unconditionally), then
decrements and succeeds iff tokens > 0.  Stated for comparison with
`getToken`, which advances the baseline only when at least one token is
earned. -/
def getTokenPerClaimC4 (now : Int) (b : TokenBucket) : Bool × TokenBucket :=
  let refillAmount := Int.fdiv (now - b.lastRefill) refillRate
  let b1 : TokenBucket := ⟨min bucketCapacity (b.tokens + refillAmount), now⟩
  if b1.tokens > 0 then (true, ⟨b1.tokens - 1, b1.lastRefill⟩) else (false, b1)

/-- Counterexample to C4 as stated: on a call with 30 s elapsed and an
empty bucket, the code performs no refill and leaves the refill baseline
unchanged (`lastRefill` stays 0), while the claim's description advances
it to `now` — and the two disagree as functions at this input. -/
theorem getToken_baseline_counterexample :
    (getToken 30000 ⟨0, 0⟩).2.lastRefill = 0 ∧
    (getTokenPerClaimC4 30000 ⟨0, 0⟩).2.lastRefill = 30000 ∧
    getToken 30000 ⟨0, 0⟩ ≠ getTokenPerClaimC4 30000 ⟨0, 0⟩ := by
  decide

/-- The token-bucket step as amended: the refill (token addition capped
at capacity, baseline advanced to `now`) happens only when at least one
whole refill unit was earned; then the call decrements and succeeds iff
tokens > 0. -/
def getTokenPerAmendedC4 (now : Int) (b : TokenBucket) : Bool × TokenBucket :=
  let refillAmount := Int.fdiv (now - b.lastRefill) refillRate
  let b1 : TokenBucket :=
    if 1 ≤ refillAmount then ⟨min bucketCapacity (b.tokens + refillAmount), now⟩ else b
  if b1.tokens > 0 then (true, ⟨b1.tokens - 1, b1.lastRefill⟩) else (false, b1)

/-- C4 (amended): starting from a full bucket, five immediate calls
grant, a sixth immediate call fails, and after one refill interval (and
before two) exactly one further call grants and the next immediate call
fails again; and every call behaves as the amended description: refill
(capped, baseline to now) only when at least one unit was earned, then
decrement and succeed iff tokens > 0. -/
theorem getToken_scenario_and_refill_law (t0 t : Int)
    (h1 : t0 + 60000 ≤ t) (h2 : t < t0 + 120000) :
    grantResults (tokenBucketInit t0) [t0, t0, t0, t0, t0, t0, t, t]
      = [true, true, true, true, true, false, true, false] ∧
    ∀ (now : Int) (b : TokenBucket), getToken now b = getTokenPerAmendedC4 now b := by
  constructor
  · have same : ∀ tk now2 : Int, getToken now2 (⟨tk, now2⟩ : TokenBucket)
        = if 0 < tk then (true, ⟨tk - 1, now2⟩) else (false, ⟨tk, now2⟩) := by
      intro tk now2
      rw [getToken_no_refill now2 ⟨tk, now2⟩ (show now2 - now2 < (60000 : Int) by omega)]
    have e7 : getToken t (⟨0, t0⟩ : TokenBucket) = (true, ⟨0, t⟩) := by
      rw [getToken_refill_one t ⟨0, t0⟩ (show (0 : Int) ≤ 0 by norm_num)
        (show (60000 : Int) ≤ t - t0 by omega) (show t - t0 < (120000 : Int) by omega)]
      norm_num
    simp [grantResults, tokenBucketInit, same, e7]
  · intro now b
    simp only [getToken, getTokenPerAmendedC4, gt_iff_lt]
    have : (0 < Int.fdiv (now - b.lastRefill) refillRate)
        ↔ (1 ≤ Int.fdiv (now - b.lastRefill) refillRate) := by omega
    rw [if_congr this rfl rfl]

/-- Witness for the C4 scenario at `t0 = 0`, `t = 60000`. -/
theorem getToken_scenario_witness :
    grantResults (tokenBucketInit 0) [0, 0, 0, 0, 0, 0, 60000, 60000]
      = [true, true, true, true, true, false, true, false] :=
  (getToken_scenario_and_refill_law 0 60000 (by norm_num) (by norm_num)).1

/-! ## Cache and relay-fetcher lemmas -/

lemma cacheGet_set_hit (c : NostrCache) (k : String) (v : List NostrPost)
    (t0 t1 : Int) (h : t1 - t0 ≤ 600000) :
    cacheGet (cacheSet c k v t0) k t1 = some v := by
  simp only [cacheGet, cacheSet, nostrTTLms, List.find?]
  rw [show (k == k) = true by simp]
  simp only
  rw [if_pos (show t1 ≤ t0 + 600 * 1000 by omega)]

lemma cacheGet_set_expired (c : NostrCache) (k : String) (v : List NostrPost)
    (t0 t1 : Int) (h : 600000 < t1 - t0) :
    cacheGet (cacheSet c k v t0) k t1 = none := by
  simp only [cacheGet, cacheSet, nostrTTLms, List.find?]
  rw [show (k == k) = true by simp]
  simp only
  rw [if_neg (show ¬ t1 ≤ t0 + 600 * 1000 by omega)]

lemma fetchNostrPosts_hit (tab : Nat) (now : Int) (cache : NostrCache)
    (up : NostrUpstream) (v : List NostrPost)
    (h : cacheGet cache (nostrKey tab) now = some v) :
    fetchNostrPosts tab now cache up = (.ok v, cache, false) := by
  simp only [fetchNostrPosts, h]

/-- C6: for the relay-source cache, `set` followed by `get` within 600
seconds returns the stored value, `get` after 600 seconds behaves as a
miss, and on a hit `fetchNostrPosts` returns the cached list without
opening any relay subscription. -/
theorem nostrCache_ttl_and_hit (c : NostrCache) (k : String) (v : List NostrPost)
    (t0 t1 : Int) (tab : Nat) (now : Int) (cache : NostrCache)
    (up : NostrUpstream) (cached : List NostrPost) :
    (t1 - t0 ≤ 600000 → cacheGet (cacheSet c k v t0) k t1 = some v) ∧
    (600000 < t1 - t0 → cacheGet (cacheSet c k v t0) k t1 = none) ∧
    (cacheGet cache (nostrKey tab) now = some cached →
      fetchNostrPosts tab now cache up = (.ok cached, cache, false)) :=
  ⟨fun h => cacheGet_set_hit c k v t0 t1 h,
   fun h => cacheGet_set_expired c k v t0 t1 h,
   fun h => fetchNostrPosts_hit tab now cache up cached h⟩

/-- Witness for C6: a value stored at time 0 is still returned at
time 599999, is a miss at time 600001, and is served by the fetcher as a
hit with no subscription opened. -/
theorem nostrCache_ttl_witness :
    cacheGet (cacheSet emptyCache "nostr_0" [] 0) "nostr_0" 599999 = some [] ∧
    cacheGet (cacheSet emptyCache "nostr_0" [] 0) "nostr_0" 600001 = none ∧
    fetchNostrPosts 0 599999 (cacheSet emptyCache "nostr_0" [] 0) .setupFail
      = (.ok [], cacheSet emptyCache "nostr_0" [] 0, false) :=
  ⟨(nostrCache_ttl_and_hit emptyCache "nostr_0" [] 0 599999 0 0 emptyCache .setupFail []).1
      (by norm_num),
   (nostrCache_ttl_and_hit emptyCache "nostr_0" [] 0 600001 0 0 emptyCache .setupFail []).2.1
      (by norm_num),
   (nostrCache_ttl_and_hit emptyCache "nostr_0" [] 0 0 0 599999
      (cacheSet emptyCache "nostr_0" [] 0) .setupFail []).2.2 (by decide)⟩

/-- C10: when the collection window completes with zero matching events,
the empty list is cached under the tab's key, and any later relay fetch
for that tab within the 600-second TTL returns that empty list as a
cache hit without opening any relay subscription. -/
theorem nostrEmpty_cached_and_served (tab : Nat) (now : Int) (cache : NostrCache)
    (es : List NostrEvent)
    (hmiss : cacheGet cache (nostrKey tab) now = none)
    (hnone : ∀ e ∈ es, nostrTest tab e.content = false) :
    fetchNostrPosts tab now cache (.events es)
      = (.ok [], cacheSet cache (nostrKey tab) [] now, true) ∧
    ∀ (now2 : Int) (up2 : NostrUpstream), now2 - now ≤ 600000 →
      fetchNostrPosts tab now2 (cacheSet cache (nostrKey tab) [] now) up2
        = (.ok [], cacheSet cache (nostrKey tab) [] now, false) := by
  have hfilter : es.filter (fun e => nostrTest tab e.content) = [] := by
    rw [List.filter_eq_nil_iff]
    intro e he
    simp [hnone e he]
  constructor
  · simp only [fetchNostrPosts, hmiss, hfilter, List.map_nil]
  · intro now2 up2 httl
    exact fetchNostrPosts_hit tab now2 _ up2 []
      (cacheGet_set_hit cache (nostrKey tab) [] now now2 httl)

/-- Witness for C10: a fresh fetch at time 0 that collects no matching
events caches `[]`, and a fetch at time 1000 is served from the cache. -/
theorem nostrEmpty_cached_witness :
    fetchNostrPosts 0 0 emptyCache (.events [⟨"e1", "pk", "hello", 0, []⟩])
      = (.ok [], cacheSet emptyCache (nostrKey 0) [] 0, true) ∧
    fetchNostrPosts 0 1000 (cacheSet emptyCache (nostrKey 0) [] 0) (.events [])
      = (.ok [], cacheSet emptyCache (nostrKey 0) [] 0, false) := by
  have h := nostrEmpty_cached_and_served 0 0 emptyCache [⟨"e1", "pk", "hello", 0, []⟩]
    (by decide) (by decide)
  exact ⟨h.1, h.2 1000 (.events []) (by norm_num)⟩

/-! ## Mastodon pagination lemmas -/

lemma sources_get_lt (tab : Nat) (h : tab < 7) :
    ∃ src, nostrSearchPatternSources.get? tab = some src := by
  match htab : nostrSearchPatternSources.get? tab with
  | some src => exact ⟨src, rfl⟩
  | none =>
    have hle := List.get?_eq_none.mp htab
    have hlen : nostrSearchPatternSources.length = 7 := by rfl
    omega

lemma sources_get_ge (tab : Nat) (h : 7 ≤ tab) :
    nostrSearchPatternSources.get? tab = none := by
  apply List.get?_len_le
  have hlen : nostrSearchPatternSources.length = 7 := by rfl
  omega

/-- The loop issues at most `fuel` requests. -/
lemma mastoLoop_log_le (up : Nat → MastoResponse) (t : String → Bool) (q : String) :
    ∀ (fuel idx : Nat) (maxId : Option String) (acc : List MastoStatus),
      ((mastoLoop up t q fuel idx maxId acc).2).length ≤ fuel
  | 0, idx, maxId, acc => by simp [mastoLoop]
  | fuel + 1, idx, maxId, acc => by
    simp only [mastoLoop]
    cases up idx
    case httpError s => simp
    case jsonError => simp
    case noStatuses => simp
    case ok statuses =>
      simp only
      split
      · simp
      · split
        · simp
        · simpa using mastoLoop_log_le up t q fuel (idx + 1) _ _

/-- Every request the loop issues carries `limit = 40`. -/
lemma mastoLoop_limit (up : Nat → MastoResponse) (t : String → Bool) (q : String) :
    ∀ (fuel idx : Nat) (maxId : Option String) (acc : List MastoStatus),
      ∀ r ∈ (mastoLoop up t q fuel idx maxId acc).2, r.limit = 40
  | 0, idx, maxId, acc => by simp [mastoLoop]
  | fuel + 1, idx, maxId, acc => by
    simp only [mastoLoop]
    cases up idx
    case httpError s => simp [mkMastoRequest]
    case jsonError => simp [mkMastoRequest]
    case noStatuses => simp [mkMastoRequest]
    case ok statuses =>
      simp only
      split
      · simp [mkMastoRequest]
      · split
        · simp [mkMastoRequest]
        · intro r hr
          simp only [List.mem_cons] at hr
          rcases hr with hr | hr
          · rw [hr]; rfl
          · exact mastoLoop_limit up t q fuel (idx + 1) _ _ r hr

/-- If the loop completes without throwing, none of the issued requests
got an HTTP-level error (the response to the `m`-th request issued by a
loop starting at index `idx` is `up (idx + m)`). -/
lemma mastoLoop_ok_no_http (up : Nat → MastoResponse) (t : String → Bool) (q : String) :
    ∀ (fuel idx : Nat) (maxId : Option String) (acc res : List MastoStatus)
      (log : List MastoRequest),
      mastoLoop up t q fuel idx maxId acc = (.ok res, log) →
      ∀ m, m < log.length → ∀ s, up (idx + m) ≠ .httpError s
  | 0, idx, maxId, acc, res, log => by
    intro heq m hm s
    simp only [mastoLoop, Prod.mk.injEq] at heq
    rw [← heq.2] at hm
    simp at hm
  | fuel + 1, idx, maxId, acc, res, log => by
    intro heq m hm s
    simp only [mastoLoop] at heq
    cases hup : up idx
    case httpError s2 => simp only [hup, Prod.mk.injEq] at heq; simp at heq
    case jsonError => simp only [hup, Prod.mk.injEq] at heq; simp at heq
    case noStatuses =>
      simp only [hup, Prod.mk.injEq] at heq
      rw [← heq.2] at hm
      have hm0 : m = 0 := Nat.lt_one_iff.mp (by simpa using hm)
      subst hm0
      rw [Nat.add_zero, hup]
      simp
    case ok statuses =>
      simp only [hup] at heq
      split at heq
      · simp only [Prod.mk.injEq] at heq
        rw [← heq.2] at hm
        have hm0 : m = 0 := Nat.lt_one_iff.mp (by simpa using hm)
        subst hm0
        rw [Nat.add_zero, hup]
        simp
      · split at heq
        · simp only [Prod.mk.injEq] at heq
          rw [← heq.2] at hm
          have hm0 : m = 0 := Nat.lt_one_iff.mp (by simpa using hm)
          subst hm0
          rw [Nat.add_zero, hup]
          simp
        · simp only [Prod.mk.injEq] at heq
          obtain ⟨h1, h2⟩ := heq
          cases m with
          | zero => rw [Nat.add_zero, hup]; simp
          | succ m2 =>
            have hpair :
                mastoLoop up t q fuel (idx + 1)
                  (some (statuses.getLastD default).id)
                  (acc ++ statuses.filter fun p => t p.content)
                = (.ok res,
                   (mastoLoop up t q fuel (idx + 1)
                     (some (statuses.getLastD default).id)
                     (acc ++ statuses.filter fun p => t p.content)).2) := by
              rw [← h1]
            have hm2 : m2 <
                ((mastoLoop up t q fuel (idx + 1)
                  (some (statuses.getLastD default).id)
                  (acc ++ statuses.filter fun p => t p.content)).2).length := by
              rw [← h2] at hm
              simpa [Nat.succ_lt_succ_iff] using hm
            have hrec := mastoLoop_ok_no_http up t q fuel (idx + 1)
              (some (statuses.getLastD default).id)
              (acc ++ statuses.filter fun p => t p.content) res _ hpair m2 hm2 s
            have harr : idx + (m2 + 1) = (idx + 1) + m2 := by omega
            rw [harr]
            exact hrec

/-- If the loop completes without throwing and the accumulator's
statuses all match, every status in the result matches. -/
lemma mastoLoop_ok_content (up : Nat → MastoResponse) (t : String → Bool) (q : String) :
    ∀ (fuel idx : Nat) (maxId : Option String) (acc res : List MastoStatus)
      (log : List MastoRequest),
      (∀ x ∈ acc, t x.content = true) →
      mastoLoop up t q fuel idx maxId acc = (.ok res, log) →
      ∀ x ∈ res, t x.content = true
  | 0, idx, maxId, acc, res, log => by
    intro hacc heq x hx
    simp only [mastoLoop, Prod.mk.injEq, Except.ok.injEq] at heq
    rw [← heq.1] at hx
    exact hacc x hx
  | fuel + 1, idx, maxId, acc, res, log => by
    intro hacc heq x hx
    have happ : ∀ statuses : List MastoStatus,
        ∀ y ∈ acc ++ statuses.filter (fun p => t p.content), t y.content = true := by
      intro statuses y hy
      rcases List.mem_append.mp hy with hy | hy
      · exact hacc y hy
      · exact (List.mem_filter.mp hy).2
    simp only [mastoLoop] at heq
    cases hup : up idx
    case httpError s2 => simp only [hup, Prod.mk.injEq] at heq; simp at heq
    case jsonError => simp only [hup, Prod.mk.injEq] at heq; simp at heq
    case noStatuses =>
      simp only [hup, Prod.mk.injEq, Except.ok.injEq] at heq
      rw [← heq.1] at hx
      exact hacc x hx
    case ok statuses =>
      simp only [hup] at heq
      split at heq
      · simp only [Prod.mk.injEq, Except.ok.injEq] at heq
        rw [← heq.1] at hx
        exact hacc x hx
      · split at heq
        · simp only [Prod.mk.injEq, Except.ok.injEq] at heq
          rw [← heq.1] at hx
          exact happ statuses x hx
        · simp only [Prod.mk.injEq] at heq
          obtain ⟨h1, h2⟩ := heq
          have hpair :
              mastoLoop up t q fuel (idx + 1)
                (some (statuses.getLastD default).id)
                (acc ++ statuses.filter fun p => t p.content)
              = (.ok res,
                 (mastoLoop up t q fuel (idx + 1)
                   (some (statuses.getLastD default).id)
                   (acc ++ statuses.filter fun p => t p.content)).2) := by
            rw [← h1]
          exact mastoLoop_ok_content up t q fuel (idx + 1)
            (some (statuses.getLastD default).id)
            (acc ++ statuses.filter fun p => t p.content) res _
            (happ statuses) hpair x hx

/-! ## Fetcher totality (C2), HTTP-error discard (C3) -/

lemma fetchBlueskyPosts_ok (tab : Nat) (langs : String) (now : Int)
    (bucket : TokenBucket) (up : BskyUpstream) :
    ∃ l, (fetchBlueskyPosts tab langs now bucket up).1 = .ok l := by
  simp only [fetchBlueskyPosts]
  split
  · exact ⟨[], rfl⟩
  · cases up
    case loginFail => exact ⟨[], rfl⟩
    case getFeedFail => exact ⟨[], rfl⟩
    case detectFacetsFail => exact ⟨[], rfl⟩
    case ok items => exact ⟨items.map processBskyItem, rfl⟩

lemma fetchNostrPosts_ok (tab : Nat) (now : Int) (cache : NostrCache)
    (up : NostrUpstream) :
    ∃ l, (fetchNostrPosts tab now cache up).1 = .ok l := by
  simp only [fetchNostrPosts]
  split
  · exact ⟨_, rfl⟩
  · cases up
    case setupFail => exact ⟨[], rfl⟩
    case events es => exact ⟨_, rfl⟩

lemma fetchMastodonPosts_ok (tab : Nat) (up : Nat → MastoResponse) (h : tab < 7) :
    ∃ l, (fetchMastodonPosts tab up).1 = .ok l := by
  obtain ⟨src, hsrc⟩ := sources_get_lt tab h
  simp only [fetchMastodonPosts, hsrc]
  rcases hl : mastoLoop up (patternTest src) (searchQueryOf src) 10 0 none []
    with ⟨res, log⟩
  cases res
  case error e => exact ⟨[], rfl⟩
  case ok sts => exact ⟨sts.map processStatus, rfl⟩

/-- C2 (amended): for every in-range tab index (0..6) and any upstream
behaviour, each of the three fetchers resolves to a list — every internal
failure is reduced to an empty list and no exception escapes. -/
theorem fetchers_total_in_range (tab : Nat) (htab : tab < 7)
    (langs : String) (now : Int) (bucket : TokenBucket) (bup : BskyUpstream)
    (cache : NostrCache) (nup : NostrUpstream) (mup : Nat → MastoResponse) :
    (∃ l, (fetchBlueskyPosts tab langs now bucket bup).1 = .ok l) ∧
    (∃ l, (fetchNostrPosts tab now cache nup).1 = .ok l) ∧
    (∃ l, (fetchMastodonPosts tab mup).1 = .ok l) :=
  ⟨fetchBlueskyPosts_ok tab langs now bucket bup,
   fetchNostrPosts_ok tab now cache nup,
   fetchMastodonPosts_ok tab mup htab⟩

/-- Witness for C2 (amended) at tab 0 with failing upstreams. -/
theorem fetchers_total_witness :
    (∃ l, (fetchBlueskyPosts 0 "en-US" 0 (tokenBucketInit 0) .loginFail).1 = .ok l) ∧
    (∃ l, (fetchNostrPosts 0 0 emptyCache .setupFail).1 = .ok l) ∧
    (∃ l, (fetchMastodonPosts 0 (fun _ => .ok [])).1 = .ok l) :=
  fetchers_total_in_range 0 (by norm_num) "en-US" 0 (tokenBucketInit 0) .loginFail
    emptyCache .setupFail (fun _ => .ok [])

/-- Counterexample to C2 as stated: the feed route passes
`parseInt(req.query.activeTab)` through unclamped, and at tab index 7 the
federated fetcher's pattern lookup (which precedes its `try`) throws, so
this fetcher does not resolve to a list. -/
theorem fetchMastodon_throws_counterexample :
    (fetchMastodonPosts 7 (fun _ => .ok [])).1 = .error mastoPatternUndefinedMsg := rfl

/-- C3: if any issued page request of the federated fetch gets an
HTTP-level error, the whole call returns the empty list — everything
accumulated from earlier successful pages is discarded. -/
theorem mastodon_http_error_empty (tab : Nat) (up : Nat → MastoResponse)
    (k s : Nat) (hk : up k = .httpError s)
    (hissued : k < ((fetchMastodonPosts tab up).2).length) :
    (fetchMastodonPosts tab up).1 = .ok [] := by
  match hsrc : nostrSearchPatternSources.get? tab with
  | none =>
    simp only [fetchMastodonPosts, hsrc] at hissued ⊢
    simp at hissued
  | some src =>
    simp only [fetchMastodonPosts, hsrc] at hissued ⊢
    rcases hl : mastoLoop up (patternTest src) (searchQueryOf src) 10 0 none []
      with ⟨res, log⟩
    rw [hl] at hissued
    cases res
    case error e => rfl
    case ok sts =>
      exfalso
      have hno := mastoLoop_ok_no_http up (patternTest src) (searchQueryOf src)
        10 0 none [] sts log hl k (by simpa using hissued) s
      rw [Nat.zero_add] at hno
      exact hno hk

/-- Witness for C3: an upstream failing with HTTP 500 on the very first
page yields the empty list. -/
theorem mastodon_http_error_witness :
    (fetchMastodonPosts 1 (fun _ => MastoResponse.httpError 500)).1 = .ok [] :=
  mastodon_http_error_empty 1 (fun _ => .httpError 500) 0 500 rfl (by decide)

/-! ## Pagination budget and cursors (C5) -/

/-- A status whose content matches tab 1's pattern (`\.gov\/`). -/
def mastoStatusA (i : String) : MastoStatus := ⟨i, "see foo.gov/ report", "", "", "", ""⟩

/-- A full page of 40 results whose last identifier is `lastId`. -/
def pageA (lastId : String) : List MastoStatus :=
  List.replicate 39 (mastoStatusA "m") ++ [mastoStatusA lastId]

/-- Mocked upstream: 40 results on pages 0..8 (last ids c0..c8), then 5
results on page 9. -/
def upA : Nat → MastoResponse := fun k =>
  if k < 9 then .ok (pageA (String.push "c" (Char.ofNat (48 + k))))
  else .ok (List.replicate 5 (mastoStatusA "z"))

/-- Mocked upstream: an empty first page. -/
def upEmptyPage : Nat → MastoResponse := fun _ => .ok []

/-- C5: the federated fetch issues at most 10 requests, each with
`limit = 40`; against an upstream returning 40 results on 9 pages then 5
on the 10th it issues exactly 10 requests, each cursor being the
identifier of the last result of the previous page (no cursor on the
first); an empty first page yields an empty list after exactly one
request. -/
theorem mastodon_pagination_budget :
    (∀ (tab : Nat) (up : Nat → MastoResponse),
        ((fetchMastodonPosts tab up).2).length ≤ 10 ∧
        ∀ r ∈ (fetchMastodonPosts tab up).2, r.limit = 40) ∧
    ((fetchMastodonPosts 1 upA).2).length = 10 ∧
    ((fetchMastodonPosts 1 upA).2).map (fun r => r.max_id)
      = [none, some "c0", some "c1", some "c2", some "c3",
         some "c4", some "c5", some "c6", some "c7", some "c8"] ∧
    (fetchMastodonPosts 1 upEmptyPage).1 = .ok [] ∧
    ((fetchMastodonPosts 1 upEmptyPage).2).length = 1 := by
  refine ⟨fun tab up => ?_, by decide, by decide, rfl, by decide⟩
  match hsrc : nostrSearchPatternSources.get? tab with
  | none =>
    simp only [fetchMastodonPosts, hsrc]
    exact ⟨by norm_num, by simp⟩
  | some src =>
    simp only [fetchMastodonPosts, hsrc]
    rcases hl : mastoLoop up (patternTest src) (searchQueryOf src) 10 0 none []
      with ⟨res, log⟩
    have hle := mastoLoop_log_le up (patternTest src) (searchQueryOf src) 10 0 none []
    have hlim := mastoLoop_limit up (patternTest src) (searchQueryOf src) 10 0 none []
    rw [hl] at hle hlim
    cases res
    case error e => exact ⟨hle, hlim⟩
    case ok sts => exact ⟨hle, hlim⟩

/-- Witness for C5's per-request bound: the single request issued against
an empty first page carries `limit = 40`. -/
theorem mastodon_pagination_witness :
    (mkMastoRequest (searchQueryOf "\\.gov\\/") none).limit = 40 :=
  (mastodon_pagination_budget.1 1 upEmptyPage).2
    (mkMastoRequest (searchQueryOf "\\.gov\\/") none) (by decide)

/-! ## Classification post-condition (C1) -/

/-- A feed item whose text matches no pattern (the feed generator, not
the classifier, selects AT-Protocol posts). -/
def bskyItemC1 : BskyItem :=
  ⟨"at://item1", "hello world", [RtSegment.plain "hello world"], [], none⟩

/-- Counterexample to C1 as stated: `fetchBlueskyPosts` returns the feed
generator's posts without consulting the tab pattern, so its output can
contain a post whose text does not match `nostrSearchPatterns[0]`. -/
theorem bsky_unfiltered_counterexample :
    (fetchBlueskyPosts 0 "en-US" 0 (tokenBucketInit 0) (.ok [bskyItemC1])).1
      = .ok [processBskyItem bskyItemC1] ∧
    nostrTest 0 (processBskyItem bskyItemC1).text = false :=
  ⟨rfl, by decide⟩

/-- C1 (amended): every event a fresh (uncached) relay fetch returns and
every status the federated fetch returns matches the tab's pattern on its
content; the AT-Protocol fetcher's output is the feed generator's list,
unfiltered. -/
theorem fetchers_filter_by_pattern (tab : Nat) :
    (∀ (now : Int) (cache : NostrCache) (es : List NostrEvent) (l : List NostrPost),
        cacheGet cache (nostrKey tab) now = none →
        (fetchNostrPosts tab now cache (.events es)).1 = .ok l →
        ∀ p ∈ l, nostrTest tab p.content = true) ∧
    (∀ (up : Nat → MastoResponse) (l : List MastoPost),
        (fetchMastodonPosts tab up).1 = .ok l →
        ∀ p ∈ l, nostrTest tab p.content = true) := by
  constructor
  · intro now cache es l hmiss hfetch p hp
    simp only [fetchNostrPosts, hmiss, Except.ok.injEq] at hfetch
    rw [← hfetch] at hp
    obtain ⟨e, he, hpe⟩ := List.mem_map.mp hp
    have hmatch := (List.mem_filter.mp he).2
    rw [← hpe]
    exact hmatch
  · intro up l hfetch p hp
    match hsrc : nostrSearchPatternSources.get? tab with
    | none =>
      simp only [fetchMastodonPosts, hsrc] at hfetch
      exact absurd hfetch (by simp)
    | some src =>
      simp only [fetchMastodonPosts, hsrc] at hfetch
      rcases hl : mastoLoop up (patternTest src) (searchQueryOf src) 10 0 none []
        with ⟨res, log⟩
      rw [hl] at hfetch
      cases res
      case error e =>
        simp only [Except.ok.injEq] at hfetch
        rw [← hfetch] at hp
        simp at hp
      case ok sts =>
        simp only [Except.ok.injEq] at hfetch
        rw [← hfetch] at hp
        obtain ⟨x, hx, hpx⟩ := List.mem_map.mp hp
        have hmatch := mastoLoop_ok_content up (patternTest src) (searchQueryOf src)
          10 0 none [] sts log (by simp) hl x hx
        rw [← hpx]
        simp only [nostrTest, hsrc]
        exact hmatch

/-- A relay event whose content matches tab 0's pattern. -/
def nostrEventC1 : NostrEvent := ⟨"e2", "pk2", "data at bea.gov today", 0, []⟩

/-- Witness for C1 (amended): a matching relay event survives the fresh
fetch and its processed form matches the pattern. -/
theorem fetchers_filter_witness :
    nostrTest 0 (processNostrEvent nostrEventC1).content = true :=
  (fetchers_filter_by_pattern 0).1 0 emptyCache [nostrEventC1]
    [processNostrEvent nostrEventC1] rfl rfl
    (processNostrEvent nostrEventC1) (List.mem_singleton.mpr rfl)

/-! ## Search-query translation (C7) -/

/-- The `OR`-join of a list of terms. -/
def orJoin : List String → String
  | [] => ""
  | [x] => x
  | x :: xs => x ++ " OR " ++ orJoin xs

/-- The translation C7 describes: the pattern's alternation branches,
each with escaped dots unescaped, joined by `" OR "`. -/
def orJoinBranches (src : String) : String :=
  orJoin ((splitOnChar '|' src.data).map fun b => replaceStr ⟨b⟩ "\\." ".")

/-- Counterexample to C7 as stated: tab 1's query keeps the escape
sequence `\/` — the translation unescapes only dots, so the query is not
free of escape sequences. -/
theorem masto_query_escape_counterexample :
    searchQueryOf (nostrSearchPatternSources.getD 1 "") = ".gov\\/" ∧
    '\\' ∈ (searchQueryOf (nostrSearchPatternSources.getD 1 "")).data := by
  decide

set_option maxRecDepth 100000 in
/-- C7 (amended): for every tab index in range, the query is the
pattern's alternation branches joined by `" OR "` with escaped dots
unescaped; no `\.` and no `|` remains, but escaped slashes (`\/`) are
left as-is, so queries of patterns containing `\/` retain backslashes. -/
theorem masto_query_translation (i : Nat) (src : String)
    (h : nostrSearchPatternSources.get? i = some src) :
    searchQueryOf src = orJoinBranches src ∧
    containsL ['\\', '.'] (searchQueryOf src).data = false ∧
    '|' ∉ (searchQueryOf src).data := by
  have hi : i < 7 := by
    by_contra hge
    rw [sources_get_ge i (by omega)] at h
    exact Option.noConfusion h
  interval_cases i <;>
    · simp only [nostrSearchPatternSources, List.get?, Option.some.injEq] at h
      subst h
      decide

/-- Witness for C7 (amended) at tab 1. -/
theorem masto_query_translation_witness :
    searchQueryOf "\\.gov\\/" = orJoinBranches "\\.gov\\/" ∧
    containsL ['\\', '.'] (searchQueryOf "\\.gov\\/").data = false ∧
    '|' ∉ (searchQueryOf "\\.gov\\/").data :=
  masto_query_translation 1 "\\.gov\\/" rfl

/-! ## Out-of-range tab at the feed route (C9) -/

/-- C9: a request whose `activeTab` parses to 7 or more gets the 500
error envelope instead of the three-list payload: the federated
fetcher's pattern lookup fails before its `try` is in effect, the
rejection reaches `Promise.all`, and the route's `catch` answers 500. -/
theorem feed_route_oob_500 (tab : Nat) (htab : 7 ≤ tab) (langs : String) (now : Int)
    (bucket : TokenBucket) (cache : NostrCache) (bup : BskyUpstream)
    (nup : NostrUpstream) (mup : Nat → MastoResponse) :
    apiFeed tab langs now bucket cache bup nup mup
      = .serverError mastoPatternUndefinedMsg := by
  obtain ⟨lb, hb⟩ := fetchBlueskyPosts_ok tab langs now bucket bup
  obtain ⟨ln, hn⟩ := fetchNostrPosts_ok tab now cache nup
  have hm : (fetchMastodonPosts tab mup).1 = .error mastoPatternUndefinedMsg := by
    simp only [fetchMastodonPosts, sources_get_ge tab htab]
  simp only [apiFeed, hb, hn, hm]

/-- Witness for C9 at tab 7. -/
theorem feed_route_oob_witness :
    apiFeed 7 "en-US" 0 (tokenBucketInit 0) emptyCache .loginFail .setupFail
      (fun _ => .ok []) = .serverError mastoPatternUndefinedMsg :=
  feed_route_oob_500 7 (by norm_num) "en-US" 0 (tokenBucketInit 0) emptyCache
    .loginFail .setupFail (fun _ => .ok [])

end CommunitySources
